import Mathlib

/-
Formal verification of the rules core of the tetris-ts repository: a shallow
embedding of src/src/collision.ts, src/src/lockAndClear.ts,
src/src/scoreAndLevel.ts and the rotation / tetromino-catalog modules,
with theorems settling the specification claims.

Conventions: JavaScript number indices and offsets are embedded as ℤ where
the source allows them to be negative and as ℕ where the source guarantees
non-negativity; grids and shapes are lists of lists of ℕ (0 = empty cell);
in-place mutation is modelled by returning the updated value, so the
source's absence of observable side effects is inherent in the embedding.
Fractional arithmetic (Math.pow(0.9, k)) is embedded exactly over ℚ.
-/

/-- Shape of a tetromino: a 2-D array, 0 = empty, positive = block. -/
abbrev BlockShape := List (List ℕ)

/-- The game board: a 10-column by 20-row 2-D array. -/
abbrev Grid := List (List ℕ)

/-- Number of columns of the grid (collision.ts / lockAndClear.ts). -/
def GRID_WIDTH : ℕ := 10

/-- Number of rows of the grid (collision.ts / lockAndClear.ts). -/
def GRID_HEIGHT : ℕ := 20

/-- Read `g[y][x]`; out-of-range reads return 0 (never reached on
well-formed inputs, where all accesses are bounds-checked first). -/
def cellAt (g : Grid) (y x : ℕ) : ℕ := (g.getD y []).getD x 0

/-- Write `g[y][x] = v`, the single mutation step used by the source's
assignment statements; `List.set` out of range is a no-op. -/
def setCell (g : Grid) (y x : ℕ) (v : ℕ) : Grid :=
  g.set y ((g.getD y []).set x v)

/-- `g` has exactly `h` rows, each of exactly `w` cells. -/
def dimsHW (g : Grid) (h w : ℕ) : Prop :=
  g.length = h ∧ ∀ r ∈ g, r.length = w

instance (g : Grid) (h w : ℕ) : Decidable (dimsHW g h w) :=
  inferInstanceAs (Decidable (g.length = h ∧ ∀ r ∈ g, r.length = w))

/-- The board invariant: exactly `GRID_HEIGHT` rows of `GRID_WIDTH` cells. -/
def gridDims (g : Grid) : Prop := dimsHW g GRID_HEIGHT GRID_WIDTH

instance (g : Grid) : Decidable (gridDims g) :=
  inferInstanceAs (Decidable (dimsHW g GRID_HEIGHT GRID_WIDTH))

/-- `grid[row].every(cell => cell !== 0)` from lockAndClear.ts. -/
def rowComplete (row : List ℕ) : Bool := row.all (fun cell => cell != 0)

/-- `new Array(GRID_WIDTH).fill(0)`, the empty row inserted at the top. -/
def zeroRow : List ℕ := List.replicate GRID_WIDTH 0

/-- The number of complete rows of a grid. -/
def countComplete (g : Grid) : ℕ := g.countP (fun row => rowComplete row)

/-- `isPositionValid` from src/src/collision.ts (lines 31-71): scans every
cell of the shape, skips empty cells, and rejects occupied cells that fall
outside the column range, outside the row range, or onto a non-zero grid
cell.  The source's early `return false` is equivalent to the `all` below
because the per-cell check has no side effects. -/
def isPositionValid (grid : Grid) (shape : BlockShape) (offsetX offsetY : ℤ) : Bool :=
  (List.range shape.length).all fun shapeY =>
    (List.range (shape.getD shapeY []).length).all fun shapeX =>
      let cellValue := (shape.getD shapeY []).getD shapeX 0
      if cellValue = 0 then true
      else if offsetX + shapeX < 0 ∨ (GRID_WIDTH : ℤ) ≤ offsetX + shapeX then false
      else if offsetY + shapeY < 0 ∨ (GRID_HEIGHT : ℤ) ≤ offsetY + shapeY then false
      else decide (cellAt grid (offsetY + shapeY).toNat (offsetX + shapeX).toNat = 0)

/-- Rotation direction ('clockwise' | 'counterClockwise'). -/
inductive Direction where
  | clockwise
  | counterClockwise
  deriving DecidableEq

/-- `rotateShape` from the rotation module: allocates an n-by-n matrix of
zeros then performs `rotated[j][n-1-i] = shape[i][j]` (clockwise) or
`rotated[n-1-j][i] = shape[i][j]` (counter-clockwise) for all i, j. -/
def rotateShape (shape : BlockShape) (direction : Direction) : BlockShape :=
  let n := shape.length
  (List.range n).foldl
    (fun acc i =>
      (List.range n).foldl
        (fun acc2 j =>
          match direction with
          | Direction.clockwise =>
              setCell acc2 j (n - 1 - i) ((shape.getD i []).getD j 0)
          | Direction.counterClockwise =>
              setCell acc2 (n - 1 - j) i ((shape.getD i []).getD j 0))
        acc)
    (List.replicate n (List.replicate n 0))

/-- Result record of `attemptRotation`. -/
structure RotationOutcome where
  rotated : BlockShape
  x : ℤ
  y : ℤ
  valid : Bool
  deriving DecidableEq

/-- The wall-kick column offsets tried by `attemptRotation`, in source order. -/
def wallKickOffsets : List ℤ := [1, -1, 2, -2]

/-- `attemptRotation` from the rotation module: rotate, test in place, then
try the horizontal kicks in order; on total failure return the original
shape at the unchanged offsets with valid = false. -/
def attemptRotation (grid : Grid) (shape : BlockShape) (offsetX offsetY : ℤ)
    (direction : Direction) : RotationOutcome :=
  let rotated := rotateShape shape direction
  if isPositionValid grid rotated offsetX offsetY then
    { rotated := rotated, x := offsetX, y := offsetY, valid := true }
  else
    match wallKickOffsets.find?
        (fun offset => isPositionValid grid rotated (offsetX + offset) offsetY) with
    | some offset =>
        { rotated := rotated, x := offsetX + offset, y := offsetY, valid := true }
    | none => { rotated := shape, x := offsetX, y := offsetY, valid := false }

/-- `SRS_WALL_KICK_DATA.standard` from the rotation module, keyed by the
`fromState->toState` transition strings, entries are (x, y) pairs. -/
def srsStandardKicks : List (String × List (ℤ × ℤ)) :=
  [("0->R", [(0, 0), (-1, 0), (-1, 1), (0, -2), (-1, -2)]),
   ("R->0", [(0, 0), (1, 0), (1, -1), (0, 2), (1, 2)]),
   ("R->2", [(0, 0), (1, 0), (1, -1), (0, 2), (1, 2)]),
   ("2->R", [(0, 0), (-1, 0), (-1, 1), (0, -2), (-1, -2)]),
   ("2->L", [(0, 0), (1, 0), (1, 1), (0, -2), (1, -2)]),
   ("L->2", [(0, 0), (-1, 0), (-1, -1), (0, 2), (-1, 2)]),
   ("L->0", [(0, 0), (-1, 0), (-1, -1), (0, 2), (-1, 2)]),
   ("0->L", [(0, 0), (1, 0), (1, 1), (0, -2), (1, -2)])]

/-- `SRS_WALL_KICK_DATA.I` from the rotation module. -/
def srsIKicks : List (String × List (ℤ × ℤ)) :=
  [("0->R", [(0, 0), (-2, 0), (1, 0), (-2, -1), (1, 2)]),
   ("R->0", [(0, 0), (2, 0), (-1, 0), (2, 1), (-1, -2)]),
   ("R->2", [(0, 0), (-1, 0), (2, 0), (-1, 2), (2, -1)]),
   ("2->R", [(0, 0), (1, 0), (-2, 0), (1, -2), (-2, 1)]),
   ("2->L", [(0, 0), (2, 0), (-1, 0), (2, 1), (-1, -2)]),
   ("L->2", [(0, 0), (-2, 0), (1, 0), (-2, -1), (1, 2)]),
   ("L->0", [(0, 0), (1, 0), (-2, 0), (1, -2), (-2, 1)]),
   ("0->L", [(0, 0), (-1, 0), (2, 0), (-1, 2), (2, -1)])]

/-- `isIPiece ? SRS_WALL_KICK_DATA.I : SRS_WALL_KICK_DATA.standard`. -/
def srsKickTable (isIPiece : Bool) : List (String × List (ℤ × ℤ)) :=
  if isIPiece then srsIKicks else srsStandardKicks

/-- `const rotationStates = ["0", "R", "2", "L"]`. -/
def rotationStates : List String := ["0", "R", "2", "L"]

/-- `rotationStates[i]`; an out-of-range JavaScript index yields `undefined`,
which the source's template literal renders as the text "undefined". -/
def stateName (i : ℕ) : String := rotationStates.getD i ("undefined")

/-- The transition key \x60${fromState}->${toState}\x60. -/
def transitionKey (a b : ℕ) : String := stateName a ++ "->" ++ stateName b

/-- `(currentRotation + 1) % 4` on clockwise, `(currentRotation + 3) % 4`
on counter-clockwise. -/
def srsNewRotation (direction : Direction) (currentRotation : ℕ) : ℕ :=
  match direction with
  | Direction.clockwise => (currentRotation + 1) % 4
  | Direction.counterClockwise => (currentRotation + 3) % 4

/-- `kickData[transitionKey] || [[0, 0]]`: the kick candidates for a
transition, falling back to the single no-offset candidate when the table
has no entry for the key. -/
def srsKickOffsets (isIPiece : Bool) (cur new : ℕ) : List (ℤ × ℤ) :=
  ((srsKickTable isIPiece).lookup (transitionKey cur new)).getD [(0, 0)]

/-- Result record of `attemptRotationSRS`. -/
structure SRSOutcome where
  rotated : BlockShape
  x : ℤ
  y : ℤ
  valid : Bool
  newRotation : ℕ
  deriving DecidableEq

/-- `attemptRotationSRS` from the rotation module (lines 240-302): rotate,
compute the new rotation state, look up the kick candidates for the
transition, try them in table order accepting the first valid one; on total
failure return the original shape and offsets with valid = false and the
pre-attempt rotation state. -/
def attemptRotationSRS (grid : Grid) (shape : BlockShape) (offsetX offsetY : ℤ)
    (direction : Direction) (currentRotation : ℕ) (isIPiece : Bool) : SRSOutcome :=
  let rotated := rotateShape shape direction
  let newRotation := srsNewRotation direction currentRotation
  match (srsKickOffsets isIPiece currentRotation newRotation).find?
      (fun k => isPositionValid grid rotated (offsetX + k.1) (offsetY + k.2)) with
  | some k =>
      { rotated := rotated, x := offsetX + k.1, y := offsetY + k.2,
        valid := true, newRotation := newRotation }
  | none =>
      { rotated := shape, x := offsetX, y := offsetY,
        valid := false, newRotation := currentRotation }

/-- The merge phase of `lockPiece` (lockAndClear.ts lines 46-66): write each
occupied shape cell whose absolute coordinates are inside the board into the
grid; out-of-bounds cells are silently skipped. -/
def mergePiece (grid : Grid) (shape : BlockShape) (offsetX offsetY : ℤ) : Grid :=
  (List.range shape.length).foldl
    (fun acc shapeY =>
      (List.range (shape.getD shapeY []).length).foldl
        (fun acc2 shapeX =>
          let cellValue := (shape.getD shapeY []).getD shapeX 0
          if cellValue ≠ 0 then
            let gridX := offsetX + shapeX
            let gridY := offsetY + shapeY
            if 0 ≤ gridY ∧ gridY < (GRID_HEIGHT : ℤ) ∧
                0 ≤ gridX ∧ gridX < (GRID_WIDTH : ℤ) then
              setCell acc2 gridY.toNat gridX.toNat cellValue
            else acc2
          else acc2)
        acc)
    grid

/-- `clearLines` from lockAndClear.ts (lines 81-106): scan rows bottom-up;
on a complete row, splice it out, unshift an empty row on top and re-check
the same index (the source's `row++` compensating the loop's `row--`).
The net effect of one clearance is that the prefix of rows strictly above
the cleared row becomes `zeroRow ::` that prefix while the suffix below is
untouched, which is precisely the recursion below; it terminates because a
step either shortens the processed prefix or removes one complete row. -/
def clearLines (g : Grid) : Grid × ℕ :=
  if hg : g = [] then ([], 0)
  else
    if hc : rowComplete (g.getLast hg) then
      let p := clearLines (zeroRow :: g.dropLast)
      (p.1, p.2 + 1)
    else
      let p := clearLines g.dropLast
      (p.1 ++ [g.getLast hg], p.2)
termination_by g.length + countComplete g
decreasing_by
  · have hz : rowComplete zeroRow = false := by decide
    have h1 : countComplete (zeroRow :: g.dropLast) = countComplete g.dropLast := by
      simp [countComplete, List.countP_cons, hz]
    have h2 : countComplete g
        = countComplete g.dropLast + (if rowComplete (g.getLast hg) then 1 else 0) := by
      conv_lhs => rw [← List.dropLast_append_getLast hg]
      simp [countComplete, List.countP_append, List.countP_cons]
    have h3 : g.dropLast.length = g.length - 1 := List.length_dropLast g
    have h4 : g.length ≠ 0 := fun h => hg (List.length_eq_zero.mp h)
    simp only [hc, if_pos] at h2
    simp only [List.length_cons, h1]
    omega
  · have h2 : countComplete g
        = countComplete g.dropLast + (if rowComplete (g.getLast hg) then 1 else 0) := by
      conv_lhs => rw [← List.dropLast_append_getLast hg]
      simp [countComplete, List.countP_append, List.countP_cons]
    have h3 : g.dropLast.length = g.length - 1 := List.length_dropLast g
    have h4 : g.length ≠ 0 := fun h => hg (List.length_eq_zero.mp h)
    omega

/-- `clearLinesOptimized` from lockAndClear.ts (lines 113-148): detect all
complete rows in one snapshot pass, early-return 0 when there are none,
otherwise rebuild the grid as (cleared-count empty rows) followed by the
incomplete rows in their original order.  For a grid scanned row by row the
source's filtering by index membership in `completedRows` coincides with
filtering by the row-completeness predicate, and `completedRows.length`
is `countComplete`. -/
def clearLinesOptimized (g : Grid) : Grid × ℕ :=
  let completedCount := countComplete g
  if completedCount = 0 then (g, 0)
  else
    (List.replicate completedCount zeroRow ++ g.filter (fun row => !rowComplete row),
     completedCount)

/-- `lockPiece` from lockAndClear.ts (lines 39-74): merge the piece into the
grid, then clear completed lines, returning the cleared count. -/
def lockPiece (grid : Grid) (shape : BlockShape) (offsetX offsetY : ℤ) : Grid × ℕ :=
  clearLines (mergePiece grid shape offsetX offsetY)

/-- `true` iff some occupied cell of the shape maps onto the in-bounds grid
coordinate (y, x) — i.e. the merge loop of `lockPiece` writes there. -/
def hitsCell (shape : BlockShape) (offsetX offsetY : ℤ) (y x : ℕ) : Bool :=
  (List.range shape.length).any fun shapeY =>
    (List.range (shape.getD shapeY []).length).any fun shapeX =>
      ((shape.getD shapeY []).getD shapeX 0 != 0)
      && decide (0 ≤ offsetY + shapeY) && decide (offsetY + shapeY < (GRID_HEIGHT : ℤ))
      && decide (0 ≤ offsetX + shapeX) && decide (offsetX + shapeX < (GRID_WIDTH : ℤ))
      && ((offsetY + shapeY).toNat == y) && ((offsetX + shapeX).toNat == x)

/-- `true` iff the shape has no occupied cell inside the board at the given
offsets (the "zero occupied cells in range" degenerate lock). -/
def noCellInRange (shape : BlockShape) (offsetX offsetY : ℤ) : Bool :=
  (List.range shape.length).all fun shapeY =>
    (List.range (shape.getD shapeY []).length).all fun shapeX =>
      ((shape.getD shapeY []).getD shapeX 0 == 0)
      || !(decide (0 ≤ offsetY + shapeY) && decide (offsetY + shapeY < (GRID_HEIGHT : ℤ))
            && decide (0 ≤ offsetX + shapeX) && decide (offsetX + shapeX < (GRID_WIDTH : ℤ)))

/-- `true` iff the grid has no complete row. -/
def noCompleteRow (g : Grid) : Bool := g.all fun row => !rowComplete row

/-- The seven canonical tetromino shapes from the tetromino module,
all 4-by-4. -/
def I_PIECE : BlockShape :=
  [[0, 0, 0, 0], [1, 1, 1, 1], [0, 0, 0, 0], [0, 0, 0, 0]]

def O_PIECE : BlockShape :=
  [[0, 0, 0, 0], [0, 2, 2, 0], [0, 2, 2, 0], [0, 0, 0, 0]]

def T_PIECE : BlockShape :=
  [[0, 0, 0, 0], [0, 3, 0, 0], [3, 3, 3, 0], [0, 0, 0, 0]]

def S_PIECE : BlockShape :=
  [[0, 0, 0, 0], [0, 4, 4, 0], [4, 4, 0, 0], [0, 0, 0, 0]]

def Z_PIECE : BlockShape :=
  [[0, 0, 0, 0], [5, 5, 0, 0], [0, 5, 5, 0], [0, 0, 0, 0]]

def J_PIECE : BlockShape :=
  [[0, 0, 0, 0], [6, 0, 0, 0], [6, 6, 6, 0], [0, 0, 0, 0]]

def L_PIECE : BlockShape :=
  [[0, 0, 0, 0], [0, 0, 7, 0], [7, 7, 7, 0], [0, 0, 0, 0]]

/-- `const TETROMINOS = [I, O, T, S, Z, J, L]`. -/
def TETROMINOS : List BlockShape :=
  [I_PIECE, O_PIECE, T_PIECE, S_PIECE, Z_PIECE, J_PIECE, L_PIECE]

/-- `getTetrominoByIndex` from the tetromino module (lines 127-134): throw a
distinguishable error for an index outside 0..TETROMINOS.length-1, otherwise
return a per-row copy of the catalog entry.  The source's
`.map(row => [...row])` deep copy is the identity on values, so under the
embedding's value semantics the returned shape equals the catalog entry
(and mutating the returned copy cannot affect the catalog). -/
def getTetrominoByIndex (index : ℤ) : Except String BlockShape :=
  if index < 0 ∨ (TETROMINOS.length : ℤ) ≤ index then
    Except.error ("Invalid tetromino index: must be between 0 and 6")
  else
    Except.ok (TETROMINOS.getD index.toNat [])

/-- `ScoreConfig` from scoreAndLevel.ts; `scoreTable` is a partial mapping
(`Record<number, number>` lookup yielding `undefined` becomes `none`). -/
structure ScoreConfig where
  initialScore : ℤ
  scoreTable : ℕ → Option ℤ
  initialLevel : ℤ
  linesPerLevel : ℕ
  baseDropInterval : ℚ

/-- The mutable fields of `ScoreManager`. -/
structure ScoreState where
  score : ℤ
  level : ℤ
  totalLinesCleared : ℕ
  deriving DecidableEq

/-- The `ScoreManager` constructor. -/
def ScoreManager.init (cfg : ScoreConfig) : ScoreState :=
  { score := cfg.initialScore, level := cfg.initialLevel, totalLinesCleared := 0 }

/-- `ScoreManager.clearLines(count)` from scoreAndLevel.ts (lines 48-61):
add the table bonus when defined, accumulate the cleared-line count, and
recompute `level = initialLevel + floor(total / linesPerLevel)`. -/
def ScoreManager.clearLines (cfg : ScoreConfig) (s : ScoreState) (count : ℕ) : ScoreState :=
  let newScore :=
    match cfg.scoreTable count with
    | some bonus => s.score + bonus
    | none => s.score
  let newTotal := s.totalLinesCleared + count
  { score := newScore,
    level := cfg.initialLevel + ((newTotal / cfg.linesPerLevel : ℕ) : ℤ),
    totalLinesCleared := newTotal }

/-- A whole call sequence against a fresh `ScoreManager`. -/
def ScoreManager.runClears (cfg : ScoreConfig) (counts : List ℕ) : ScoreState :=
  counts.foldl (ScoreManager.clearLines cfg) (ScoreManager.init cfg)

/-- `ScoreManager.getDropInterval()` (lines 68-70):
`baseDropInterval * Math.pow(0.9, level - 1)`, embedded exactly over ℚ. -/
def ScoreManager.getDropInterval (cfg : ScoreConfig) (level : ℤ) : ℚ :=
  cfg.baseDropInterval * (9 / 10 : ℚ) ^ (level - 1)

/-- The empty 10-by-20 board. -/
def emptyGrid : Grid := List.replicate GRID_HEIGHT zeroRow

/-- A board whose every cell is occupied. -/
def fullGrid : Grid := List.replicate GRID_HEIGHT (List.replicate GRID_WIDTH 1)

/-- A board that is empty except that its bottom row is complete. -/
def fullRowGrid : Grid :=
  List.replicate (GRID_HEIGHT - 1) zeroRow ++ [List.replicate GRID_WIDTH 1]

/-- A 4-by-4 shape with no occupied cell. -/
def zeroShape : BlockShape := List.replicate 4 (List.replicate 4 0)

/-- Concrete configuration used to exhibit the missing drop-interval floor. -/
def cfgDrop : ScoreConfig :=
  { initialScore := 0, scoreTable := fun _ => none, initialLevel := 1,
    linesPerLevel := 10, baseDropInterval := 1000 }

/-- Concrete configuration whose score table holds a negative bonus. -/
def cfgNeg : ScoreConfig :=
  { initialScore := 0, scoreTable := fun n => if n = 1 then some (-5) else none,
    initialLevel := 1, linesPerLevel := 1, baseDropInterval := 1000 }

/-- Concrete well-behaved configuration (non-negative table entries). -/
def cfgW : ScoreConfig :=
  { initialScore := 0,
    scoreTable := fun n =>
      if n = 1 then some 100 else if n = 2 then some 300
      else if n = 3 then some 500 else if n = 4 then some 800 else none,
    initialLevel := 1, linesPerLevel := 10, baseDropInterval := 1000 }

/-- getD of a set list: the new value iff the indices agree and the write
was in range. -/
theorem getD_set {α : Type} (l : List α) (i j : ℕ) (a d : α) :
    (l.set i a).getD j d = if i = j ∧ i < l.length then a else l.getD j d := by
  rw [List.getD_eq_getElem?_getD, List.getElem?_set, List.getD_eq_getElem?_getD]
  by_cases h : i = j
  · subst h
    by_cases h2 : i < l.length
    · simp [h2]
    · have hnone : l[i]? = none := List.getElem?_eq_none (by omega)
      simp [h2, hnone]
  · simp [h, fun hc : i = j ∧ i < l.length => h hc.1]

/-- In-range getD is getElem. -/
theorem getD_lt {α : Type} (l : List α) (d : α) (i : ℕ) (h : i < l.length) :
    l.getD i d = l[i] := by
  rw [List.getD_eq_getElem?_getD, List.getElem?_eq_getElem h]
  rfl

/-- Out-of-range getD is the default. -/
theorem getD_ge {α : Type} (l : List α) (d : α) (i : ℕ) (h : l.length ≤ i) :
    l.getD i d = d := by
  rw [List.getD_eq_getElem?_getD, List.getElem?_eq_none h]
  rfl

/-- In-range getD is a member. -/
theorem getD_mem {α : Type} (l : List α) (d : α) (i : ℕ) (h : i < l.length) :
    l.getD i d ∈ l := by
  rw [getD_lt l d i h]
  exact List.getElem_mem h

/-- getD of replicate below the length. -/
theorem getD_replicate_lt {α : Type} (n i : ℕ) (a d : α) (h : i < n) :
    (List.replicate n a).getD i d = a := by
  rw [getD_lt _ d i (by simpa using h)]
  exact List.getElem_replicate ..

/-- Invariant preservation along a left fold. -/
theorem foldl_induction {α β : Type} (f : β → α → β) :
    ∀ (l : List α) (init : β) (P : β → Prop), P init →
      (∀ b a, a ∈ l → P b → P (f b a)) → P (l.foldl f init)
  | [], _, _, h0, _ => h0
  | a :: t, init, P, h0, hstep =>
    foldl_induction f t (f init a) P (hstep init a (List.mem_cons_self a t) h0)
      (fun b x hx hb => hstep b x (List.mem_cons_of_mem a hx) hb)

/-- A cell write leaves every other cell unchanged. -/
theorem cellAt_setCell_ne (g : Grid) (y x v r c : ℕ) (h : ¬(y = r ∧ x = c)) :
    cellAt (setCell g y x v) r c = cellAt g r c := by
  unfold cellAt setCell
  rw [getD_set]
  by_cases hy : y = r
  · subst hy
    by_cases hl : y < g.length
    · rw [if_pos ⟨rfl, hl⟩, getD_set]
      have hx : ¬(x = c ∧ x < (g.getD y []).length) :=
        fun hc => h ⟨rfl, hc.1⟩
      rw [if_neg hx]
    · rw [if_neg (fun hcon => hl hcon.2)]
  · rw [if_neg (fun hcon => hy hcon.1)]

/-- An in-bounds cell write stores its value, given the dimension invariant. -/
theorem cellAt_setCell_self (g : Grid) (y x v h w : ℕ) (hd : dimsHW g h w)
    (hy : y < h) (hx : x < w) : cellAt (setCell g y x v) y x = v := by
  unfold cellAt setCell
  have hyl : y < g.length := by rw [hd.1]; exact hy
  have hrow : (g.getD y []).length = w := hd.2 _ (getD_mem g [] y hyl)
  rw [getD_set, if_pos ⟨rfl, hyl⟩, getD_set, if_pos ⟨rfl, by rw [hrow]; exact hx⟩]

/-- A cell write preserves the dimension invariant. -/
theorem setCell_dims (g : Grid) (y x v h w : ℕ) (hd : dimsHW g h w) :
    dimsHW (setCell g y x v) h w := by
  by_cases hyl : y < g.length
  · constructor
    · rw [setCell, List.length_set]; exact hd.1
    · intro r hr
      rcases List.mem_or_eq_of_mem_set hr with hmem | heq
      · exact hd.2 r hmem
      · subst heq
        rw [List.length_set]
        exact hd.2 _ (getD_mem g [] y hyl)
  · rw [setCell, List.set_eq_of_length_le (by omega)]
    exact hd

/-- A sequence of cell writes preserves the dimension invariant. -/
theorem foldl_write_dims (t : ℕ → ℕ × ℕ) (v : ℕ → ℕ) (h w : ℕ) (m : ℕ) (g : Grid)
    (hd : dimsHW g h w) :
    dimsHW ((List.range m).foldl (fun a k => setCell a (t k).1 (t k).2 (v k)) g) h w := by
  apply foldl_induction (fun a k => setCell a (t k).1 (t k).2 (v k)) (List.range m) g
    (fun G => dimsHW G h w) hd
  intro b k _ hb
  exact setCell_dims b (t k).1 (t k).2 (v k) h w hb

/-- A cell no write targets is unchanged by a sequence of writes. -/
theorem foldl_write_frame (t : ℕ → ℕ × ℕ) (v : ℕ → ℕ) :
    ∀ (m : ℕ) (g : Grid) (r c : ℕ), (∀ k, k < m → t k ≠ (r, c)) →
      cellAt ((List.range m).foldl (fun a k => setCell a (t k).1 (t k).2 (v k)) g) r c
        = cellAt g r c := by
  intro m
  induction m with
  | zero => intro g r c _; rfl
  | succ m ih =>
    intro g r c hk
    rw [List.range_succ, List.foldl_append, List.foldl_cons, List.foldl_nil]
    rw [cellAt_setCell_ne]
    · exact ih g r c (fun k hkm => hk k (by omega))
    · intro hcon
      exact hk m (by omega) (Prod.ext hcon.1 hcon.2)

/-- The last write to a cell in a sequence of writes determines its value. -/
theorem foldl_write_hit (t : ℕ → ℕ × ℕ) (v : ℕ → ℕ) (h w : ℕ) :
    ∀ (m : ℕ) (g : Grid) (r c k₀ : ℕ), dimsHW g h w → r < h → c < w →
      k₀ < m → t k₀ = (r, c) → (∀ k, k₀ < k → k < m → t k ≠ (r, c)) →
      cellAt ((List.range m).foldl (fun a k => setCell a (t k).1 (t k).2 (v k)) g) r c
        = v k₀ := by
  intro m
  induction m with
  | zero => intro g r c k₀ _ _ _ hk _ _; exact absurd hk (Nat.not_lt_zero k₀)
  | succ m ih =>
    intro g r c k₀ hd hr hc hk₀ ht hlater
    rw [List.range_succ, List.foldl_append, List.foldl_cons, List.foldl_nil]
    by_cases hm : k₀ = m
    · subst hm
      have hdm := foldl_write_dims t v h w k₀ g hd
      simp only [ht]
      exact cellAt_setCell_self _ r c (v k₀) h w hdm hr hc
    · rw [cellAt_setCell_ne]
      · exact ih g r c k₀ hd hr hc (by omega) ht (fun k h1 h2 => hlater k h1 (by omega))
      · intro hcon
        exact hlater m (by omega) (by omega) (Prod.ext hcon.1 hcon.2)

/-- Dimension invariant of a replicated grid. -/
theorem replicate_dims (n m : ℕ) (x : List ℕ) (hx : x.length = m) :
    dimsHW (List.replicate n x) n m :=
  ⟨by simp, fun r hr => (List.eq_of_mem_replicate hr) ▸ hx⟩

/-- Every cell of the all-zero n-by-n matrix reads 0. -/
theorem cellAt_zeroInit (n r c : ℕ) (hr : r < n) :
    cellAt (List.replicate n (List.replicate n 0)) r c = 0 := by
  unfold cellAt
  rw [getD_replicate_lt _ _ _ _ hr]
  by_cases hcn : c < n
  · rw [getD_replicate_lt _ _ _ _ hcn]
  · rw [getD_ge _ _ _ (by simpa using Nat.le_of_not_lt hcn)]

/-- Two grids of equal dimensions with equal cells are equal. -/
theorem grid_ext (g₁ g₂ : Grid) (h w : ℕ) (h₁ : dimsHW g₁ h w) (h₂ : dimsHW g₂ h w)
    (hc : ∀ r c, r < h → c < w → cellAt g₁ r c = cellAt g₂ r c) : g₁ = g₂ := by
  apply List.ext_getElem (by rw [h₁.1, h₂.1])
  intro i hi1 hi2
  apply List.ext_getElem
    (by rw [h₁.2 _ (List.getElem_mem hi1), h₂.2 _ (List.getElem_mem hi2)])
  intro j hj1 hj2
  have hlen1 := h₁.1
  have hrow1 := h₁.2 _ (List.getElem_mem hi1)
  have hcell := hc i j (by omega) (by omega)
  have e1 : cellAt g₁ i j = g₁[i][j] := by
    unfold cellAt
    rw [getD_lt g₁ [] i hi1, getD_lt _ 0 j hj1]
  have e2 : cellAt g₂ i j = g₂[i][j] := by
    unfold cellAt
    rw [getD_lt g₂ [] i hi2, getD_lt _ 0 j hj2]
  rw [e1, e2] at hcell
  exact hcell

/-- The inserted empty top row is never itself complete. -/
theorem rowComplete_zeroRow : rowComplete zeroRow = false := by decide

/-- Complete-row count split at the last row. -/
theorem countComplete_dropLast (g : Grid) (hg : g ≠ []) :
    countComplete g
      = countComplete g.dropLast + (if rowComplete (g.getLast hg) then 1 else 0) := by
  conv_lhs => rw [← List.dropLast_append_getLast hg]
  simp [countComplete, List.countP_append, List.countP_cons]

/-- Reassociating a replicated prefix around one more copy. -/
theorem replicate_append_cons {α : Type} (n : ℕ) (z : α) (l : List α) :
    List.replicate n z ++ z :: l = List.replicate (n + 1) z ++ l := by
  rw [List.replicate_succ', List.append_assoc, List.singleton_append]

/-- Characterization of the iterative bottom-up `clearLines` loop: it
replaces the grid by one all-zero row per complete row followed by the
incomplete rows in their original order, and returns the complete-row
count. -/
theorem clearLines_spec (g : Grid) :
    clearLines g
      = (List.replicate (countComplete g) zeroRow ++ g.filter (fun row => !rowComplete row),
         countComplete g) := by
  have H : ∀ (N : ℕ) (g : Grid), g.length + countComplete g ≤ N →
      clearLines g
        = (List.replicate (countComplete g) zeroRow
             ++ g.filter (fun row => !rowComplete row),
           countComplete g) := by
    intro N
    induction N with
    | zero =>
      intro g hN
      have hg : g = [] := List.length_eq_zero.mp (by omega)
      subst hg
      rw [clearLines]
      simp [countComplete]
    | succ N ih =>
      intro g hN
      by_cases hg : g = []
      · subst hg
        rw [clearLines]
        simp [countComplete]
      · rw [clearLines, dif_neg hg]
        have hcc := countComplete_dropLast g hg
        have hlen := List.length_dropLast g
        have hlen0 : g.length ≠ 0 := fun h => hg (List.length_eq_zero.mp h)
        by_cases hc : rowComplete (g.getLast hg) = true
        · rw [dif_pos hc]
          simp only [hc, if_pos] at hcc
          have hccz : countComplete (zeroRow :: g.dropLast) = countComplete g.dropLast := by
            simp [countComplete, List.countP_cons, rowComplete_zeroRow]
          have hrec := ih (zeroRow :: g.dropLast)
            (by simp only [List.length_cons, hccz]; omega)
          show ((clearLines (zeroRow :: g.dropLast)).1,
              (clearLines (zeroRow :: g.dropLast)).2 + 1)
            = (List.replicate (countComplete g) zeroRow
                 ++ g.filter (fun row => !rowComplete row), countComplete g)
          rw [hrec]
          have hfz : (zeroRow :: g.dropLast).filter (fun row => !rowComplete row)
              = zeroRow :: g.dropLast.filter (fun row => !rowComplete row) :=
            List.filter_cons_of_pos (by simp [rowComplete_zeroRow])
          have hfg : g.filter (fun row => !rowComplete row)
              = g.dropLast.filter (fun row => !rowComplete row) := by
            conv_lhs => rw [← List.dropLast_append_getLast hg]
            rw [List.filter_append]
            simp [hc]
          rw [hccz, hfz, hfg, replicate_append_cons, hcc]
        · rw [dif_neg hc]
          simp only [hc, if_neg, if_false] at hcc
          have hrec := ih g.dropLast (by omega)
          show ((clearLines g.dropLast).1 ++ [g.getLast hg], (clearLines g.dropLast).2)
            = (List.replicate (countComplete g) zeroRow
                 ++ g.filter (fun row => !rowComplete row), countComplete g)
          rw [hrec]
          have hfg : g.filter (fun row => !rowComplete row)
              = g.dropLast.filter (fun row => !rowComplete row) ++ [g.getLast hg] := by
            conv_lhs => rw [← List.dropLast_append_getLast hg]
            rw [List.filter_append]
            simp [hc]
          rw [hfg, hcc]
          simp [List.append_assoc]
  exact H (g.length + countComplete g) g le_rfl

/-- After any call sequence the level is the derived function of the
cumulative cleared-line total (re-established by every call). -/
theorem ScoreManager.level_eq (cfg : ScoreConfig) (counts : List ℕ) :
    (ScoreManager.runClears cfg counts).level
      = cfg.initialLevel
        + (((ScoreManager.runClears cfg counts).totalLinesCleared
              / cfg.linesPerLevel : ℕ) : ℤ) := by
  induction counts using List.reverseRecOn with
  | nil => simp [ScoreManager.runClears, ScoreManager.init]
  | append_singleton t c _ =>
    rw [ScoreManager.runClears, List.foldl_append, List.foldl_cons, List.foldl_nil]
    rfl

/-- `rotateShape` always yields an n-by-n matrix, n the input's row count. -/
theorem rotateShape_dims (s : BlockShape) (d : Direction) :
    dimsHW (rotateShape s d) s.length s.length := by
  cases d
  case clockwise =>
    show dimsHW ((List.range s.length).foldl
      (fun acc i => (List.range s.length).foldl
        (fun acc2 j => setCell acc2 j (s.length - 1 - i) ((s.getD i []).getD j 0)) acc)
      (List.replicate s.length (List.replicate s.length 0))) s.length s.length
    apply foldl_induction _ (List.range s.length) _ (fun G => dimsHW G s.length s.length)
    · exact replicate_dims _ _ _ (by simp)
    · intro b i _ hb
      exact foldl_write_dims (fun j => (j, s.length - 1 - i))
        (fun j => (s.getD i []).getD j 0) _ _ _ b hb
  case counterClockwise =>
    show dimsHW ((List.range s.length).foldl
      (fun acc i => (List.range s.length).foldl
        (fun acc2 j => setCell acc2 (s.length - 1 - j) i ((s.getD i []).getD j 0)) acc)
      (List.replicate s.length (List.replicate s.length 0))) s.length s.length
    apply foldl_induction _ (List.range s.length) _ (fun G => dimsHW G s.length s.length)
    · exact replicate_dims _ _ _ (by simp)
    · intro b i _ hb
      exact foldl_write_dims (fun j => (s.length - 1 - j, i))
        (fun j => (s.getD i []).getD j 0) _ _ _ b hb

/-- Cell-level characterization of the clockwise rotation:
`rotated[r][c] = shape[n-1-c][r]`. -/
theorem rotateShape_cw_cell (s : BlockShape) (r c : ℕ)
    (hr : r < s.length) (hc : c < s.length) :
    cellAt (rotateShape s Direction.clockwise) r c = cellAt s (s.length - 1 - c) r := by
  have hstep : ∀ (m : ℕ) (A : Grid), dimsHW A s.length s.length →
      ∀ r c, r < s.length → c < s.length →
        cellAt ((List.range s.length).foldl
          (fun acc2 j => setCell acc2 j (s.length - 1 - m) ((s.getD m []).getD j 0)) A) r c
          = if c = s.length - 1 - m then (s.getD m []).getD r 0 else cellAt A r c := by
    intro m A hA r c hr hc
    by_cases hcm : c = s.length - 1 - m
    · rw [if_pos hcm]
      refine foldl_write_hit (fun j => (j, s.length - 1 - m))
        (fun j => (s.getD m []).getD j 0) s.length s.length s.length A r c r hA hr hc hr ?_ ?_
      · show (r, s.length - 1 - m) = (r, c)
        rw [hcm]
      · intro k h1 h2 hcon
        have hk : k = r := congrArg Prod.fst hcon
        omega
    · rw [if_neg hcm]
      refine foldl_write_frame (fun j => (j, s.length - 1 - m))
        (fun j => (s.getD m []).getD j 0) s.length A r c ?_
      intro k hk hcon
      exact hcm (congrArg Prod.snd hcon).symm
  have key : ∀ m, m ≤ s.length →
      dimsHW ((List.range m).foldl
        (fun acc i => (List.range s.length).foldl
          (fun acc2 j => setCell acc2 j (s.length - 1 - i) ((s.getD i []).getD j 0)) acc)
        (List.replicate s.length (List.replicate s.length 0))) s.length s.length
      ∧ ∀ r c, r < s.length → c < s.length →
          cellAt ((List.range m).foldl
            (fun acc i => (List.range s.length).foldl
              (fun acc2 j => setCell acc2 j (s.length - 1 - i) ((s.getD i []).getD j 0)) acc)
            (List.replicate s.length (List.replicate s.length 0))) r c
            = if s.length - 1 - c < m then cellAt s (s.length - 1 - c) r else 0 := by
    intro m
    induction m with
    | zero =>
      intro _
      refine ⟨replicate_dims _ _ _ (by simp), ?_⟩
      intro r c hr hc
      rw [if_neg (by omega)]
      exact cellAt_zeroInit _ _ _ hr
    | succ m ih =>
      intro hm
      have ihm := ih (by omega)
      constructor
      · rw [List.range_succ, List.foldl_append, List.foldl_cons, List.foldl_nil]
        exact foldl_write_dims (fun j => (j, s.length - 1 - m))
          (fun j => (s.getD m []).getD j 0) s.length s.length s.length _ ihm.1
      · intro r c hr hc
        rw [List.range_succ, List.foldl_append, List.foldl_cons, List.foldl_nil,
          hstep m _ ihm.1 r c hr hc]
        by_cases hcm : c = s.length - 1 - m
        · rw [if_pos hcm, if_pos (by omega)]
          have hnc : s.length - 1 - c = m := by omega
          rw [hnc]
          rfl
        · rw [if_neg hcm, ihm.2 r c hr hc]
          have hne : s.length - 1 - c ≠ m := fun h => hcm (by omega)
          exact if_congr (by omega) rfl rfl
  have hmain := (key s.length le_rfl).2 r c hr hc
  rw [if_pos (by omega)] at hmain
  exact hmain

/-- Cell-level characterization of the counter-clockwise rotation:
`rotated[r][c] = shape[c][n-1-r]`. -/
theorem rotateShape_ccw_cell (s : BlockShape) (r c : ℕ)
    (hr : r < s.length) (hc : c < s.length) :
    cellAt (rotateShape s Direction.counterClockwise) r c
      = cellAt s c (s.length - 1 - r) := by
  have hstep : ∀ (m : ℕ) (A : Grid), dimsHW A s.length s.length →
      ∀ r c, r < s.length → c < s.length →
        cellAt ((List.range s.length).foldl
          (fun acc2 j => setCell acc2 (s.length - 1 - j) m ((s.getD m []).getD j 0)) A) r c
          = if c = m then (s.getD m []).getD (s.length - 1 - r) 0 else cellAt A r c := by
    intro m A hA r c hr hc
    by_cases hcm : c = m
    · rw [if_pos hcm]
      refine foldl_write_hit (fun j => (s.length - 1 - j, m))
        (fun j => (s.getD m []).getD j 0) s.length s.length s.length A r c
        (s.length - 1 - r) hA hr hc (by omega) ?_ ?_
      · show (s.length - 1 - (s.length - 1 - r), m) = (r, c)
        have hrr : s.length - 1 - (s.length - 1 - r) = r := by omega
        rw [hrr, hcm]
      · intro k h1 h2 hcon
        have hk : s.length - 1 - k = r := congrArg Prod.fst hcon
        omega
    · rw [if_neg hcm]
      refine foldl_write_frame (fun j => (s.length - 1 - j, m))
        (fun j => (s.getD m []).getD j 0) s.length A r c ?_
      intro k hk hcon
      exact hcm (congrArg Prod.snd hcon).symm
  have key : ∀ m, m ≤ s.length →
      dimsHW ((List.range m).foldl
        (fun acc i => (List.range s.length).foldl
          (fun acc2 j => setCell acc2 (s.length - 1 - j) i ((s.getD i []).getD j 0)) acc)
        (List.replicate s.length (List.replicate s.length 0))) s.length s.length
      ∧ ∀ r c, r < s.length → c < s.length →
          cellAt ((List.range m).foldl
            (fun acc i => (List.range s.length).foldl
              (fun acc2 j => setCell acc2 (s.length - 1 - j) i ((s.getD i []).getD j 0)) acc)
            (List.replicate s.length (List.replicate s.length 0))) r c
            = if c < m then cellAt s c (s.length - 1 - r) else 0 := by
    intro m
    induction m with
    | zero =>
      intro _
      refine ⟨replicate_dims _ _ _ (by simp), ?_⟩
      intro r c hr hc
      rw [if_neg (by omega)]
      exact cellAt_zeroInit _ _ _ hr
    | succ m ih =>
      intro hm
      have ihm := ih (by omega)
      constructor
      · rw [List.range_succ, List.foldl_append, List.foldl_cons, List.foldl_nil]
        exact foldl_write_dims (fun j => (s.length - 1 - j, m))
          (fun j => (s.getD m []).getD j 0) s.length s.length s.length _ ihm.1
      · intro r c hr hc
        rw [List.range_succ, List.foldl_append, List.foldl_cons, List.foldl_nil,
          hstep m _ ihm.1 r c hr hc]
        by_cases hcm : c = m
        · rw [if_pos hcm, if_pos (by omega)]
          rw [hcm]
          rfl
        · rw [if_neg hcm, ihm.2 r c hr hc]
          exact if_congr (by omega) rfl rfl
  have hmain := (key s.length le_rfl).2 r c hr hc
  rw [if_pos (by omega)] at hmain
  exact hmain

/-- Length bookkeeping: incomplete rows plus complete rows exhaust the grid. -/
theorem filter_not_length {α : Type} (p : α → Bool) (l : List α) :
    (l.filter (fun a => !p a)).length + l.countP p = l.length := by
  induction l with
  | nil => simp
  | cons a t ih =>
    by_cases h : p a = true
    · rw [List.filter_cons_of_neg (by simp [h])]
      simp [List.countP_cons, h]
      omega
    · rw [List.filter_cons_of_pos (by simp [h])]
      simp [List.countP_cons, h]
      omega

/-- The compacted grid (zero rows on top, incomplete rows below) keeps the
board dimensions. -/
theorem cleared_dims (G : Grid) (hG : gridDims G) :
    gridDims (List.replicate (countComplete G) zeroRow
      ++ G.filter (fun row => !rowComplete row)) := by
  constructor
  · rw [List.length_append, List.length_replicate]
    have hsum := filter_not_length (fun row => rowComplete row) G
    have hlen := hG.1
    unfold countComplete
    omega
  · intro r hr
    rcases List.mem_append.mp hr with h1 | h2
    · rw [List.eq_of_mem_replicate h1]
      simp [zeroRow]
    · exact hG.2 r (List.mem_of_mem_filter h2)

/-- C1: for every 10-by-20 grid, shape and integer offsets,
`isPositionValid` returns true exactly when every occupied cell of the
shape maps to an absolute column in [0, 10), an absolute row in [0, 20),
and an empty grid cell — equivalently, it returns false as soon as any
occupied cell is out of bounds or overlaps a non-zero cell.  The embedding
is a pure Lean function, so it has no side effects on the grid or shape. -/
theorem isPositionValid_spec (grid : Grid) (shape : BlockShape) (colOffset rowOffset : ℤ)
    (_hg : gridDims grid) :
    isPositionValid grid shape colOffset rowOffset = true ↔
      ∀ sy sx : ℕ, sy < shape.length → sx < (shape.getD sy []).length →
        (shape.getD sy []).getD sx 0 ≠ 0 →
        0 ≤ colOffset + sx ∧ colOffset + sx < (GRID_WIDTH : ℤ)
        ∧ 0 ≤ rowOffset + sy ∧ rowOffset + sy < (GRID_HEIGHT : ℤ)
        ∧ cellAt grid (rowOffset + sy).toNat (colOffset + sx).toNat = 0 := by
  unfold isPositionValid
  rw [List.all_eq_true]
  constructor
  · intro H sy sx hsy hsx hv
    have h1 := H sy (List.mem_range.mpr hsy)
    rw [List.all_eq_true] at h1
    have h2 := h1 sx (List.mem_range.mpr hsx)
    dsimp only at h2
    rw [if_neg hv] at h2
    by_cases hb1 : colOffset + sx < 0 ∨ (GRID_WIDTH : ℤ) ≤ colOffset + sx
    · rw [if_pos hb1] at h2
      exact absurd h2 (by simp)
    · rw [if_neg hb1] at h2
      by_cases hb2 : rowOffset + sy < 0 ∨ (GRID_HEIGHT : ℤ) ≤ rowOffset + sy
      · rw [if_pos hb2] at h2
        exact absurd h2 (by simp)
      · rw [if_neg hb2] at h2
        push_neg at hb1 hb2
        exact ⟨hb1.1, hb1.2, hb2.1, hb2.2, of_decide_eq_true h2⟩
  · intro H sy hsy
    rw [List.all_eq_true]
    intro sx hsx
    dsimp only
    by_cases hv : (shape.getD sy []).getD sx 0 = 0
    · rw [if_pos hv]
    · obtain ⟨k1, k2, k3, k4, k5⟩ :=
        H sy sx (List.mem_range.mp hsy) (List.mem_range.mp hsx) hv
      rw [if_neg hv, if_neg (by push_neg; exact ⟨k1, k2⟩),
        if_neg (by push_neg; exact ⟨k3, k4⟩)]
      exact decide_eq_true k5

/-- Witness for C1 at a concrete board, shape and offset. -/
theorem isPositionValid_spec_witness :
    gridDims emptyGrid
    ∧ (isPositionValid emptyGrid T_PIECE 3 0 = true ↔
        ∀ sy sx : ℕ, sy < T_PIECE.length → sx < (T_PIECE.getD sy []).length →
          (T_PIECE.getD sy []).getD sx 0 ≠ 0 →
          0 ≤ (3 : ℤ) + sx ∧ (3 : ℤ) + sx < (GRID_WIDTH : ℤ)
          ∧ 0 ≤ (0 : ℤ) + sy ∧ (0 : ℤ) + sy < (GRID_HEIGHT : ℤ)
          ∧ cellAt emptyGrid ((0 : ℤ) + sy).toNat ((3 : ℤ) + sx).toNat = 0) :=
  ⟨by decide, isPositionValid_spec emptyGrid T_PIECE 3 0 (by decide)⟩

/-- C2: `attemptRotation` tests the rotated shape at the unchanged offset
and then at the horizontal kicks +1, -1, +2, -2 (row unchanged) in exactly
that order, returning the rotated shape at the first valid offset with
valid = true, and otherwise the original shape at the unchanged offsets
with valid = false; the first-match semantics is `List.find?` over the
candidate offsets 0, +1, -1, +2, -2.  Inputs are never mutated: the
embedding is a pure function of its arguments. -/
theorem attemptRotation_spec (grid : Grid) (shape : BlockShape) (offsetX offsetY : ℤ)
    (direction : Direction) :
    attemptRotation grid shape offsetX offsetY direction
      = match ([0, 1, -1, 2, -2] : List ℤ).find?
          (fun offset => isPositionValid grid (rotateShape shape direction)
            (offsetX + offset) offsetY) with
        | some offset =>
            { rotated := rotateShape shape direction, x := offsetX + offset,
              y := offsetY, valid := true }
        | none => { rotated := shape, x := offsetX, y := offsetY, valid := false } := by
  have hcons : ∀ (k : ℤ) (rest : List ℤ),
      List.find? (fun offset => isPositionValid grid (rotateShape shape direction)
        (offsetX + offset) offsetY) (k :: rest)
      = if isPositionValid grid (rotateShape shape direction) (offsetX + k) offsetY
        then some k
        else List.find? (fun offset => isPositionValid grid (rotateShape shape direction)
          (offsetX + offset) offsetY) rest := by
    intro k rest
    by_cases hk : isPositionValid grid (rotateShape shape direction) (offsetX + k) offsetY = true
    · rw [if_pos hk]
      exact List.find?_cons_of_pos rest hk
    · rw [if_neg hk]
      exact List.find?_cons_of_neg rest hk
  simp only [attemptRotation]
  rw [hcons 0]
  by_cases h0 : isPositionValid grid (rotateShape shape direction) offsetX offsetY = true
  · rw [if_pos h0, if_pos (by simpa using h0)]
    simp
  · rw [if_neg h0, if_neg (by simpa using h0)]
    rfl

/-- C3: on every 10-by-20 grid the iterative bottom-up `clearLines` and the
one-pass `clearLinesOptimized` agree — same cleared count, same resulting
grid — and both equal the snapshot compaction: the complete rows removed,
the remaining rows kept in order, and that many all-zero rows on top. -/
theorem clearLines_equiv (g : Grid) (_hg : gridDims g) :
    clearLines g = clearLinesOptimized g
    ∧ clearLines g
        = (List.replicate (countComplete g) zeroRow
             ++ g.filter (fun row => !rowComplete row),
           countComplete g) := by
  refine ⟨?_, clearLines_spec g⟩
  rw [clearLines_spec g]
  show (List.replicate (countComplete g) zeroRow
      ++ g.filter (fun row => !rowComplete row), countComplete g)
    = if countComplete g = 0 then (g, 0)
      else (List.replicate (countComplete g) zeroRow
              ++ g.filter (fun row => !rowComplete row), countComplete g)
  by_cases h : countComplete g = 0
  · rw [if_pos h, h]
    have hfix : g.filter (fun row => !rowComplete row) = g := by
      apply List.filter_eq_self.mpr
      intro a ha
      have := List.countP_eq_zero.mp h a ha
      simp only [Bool.not_eq_true'] at this ⊢
      simp [this]
    rw [hfix]
    simp
  · rw [if_neg h]

/-- Witness for C3 at a concrete board with one complete row. -/
theorem clearLines_equiv_witness :
    clearLines fullRowGrid = clearLinesOptimized fullRowGrid :=
  (clearLines_equiv fullRowGrid (by decide)).1

/-- C5 (amended): `getDropInterval` returns
baseDropInterval * 0.9 ^ (level − 1); for a positive base interval the
result is strictly decreasing as the level increases and is always
positive.  Contrary to the original claim the code applies no minimum
floor: see the counterexample theorem. -/
theorem getDropInterval_spec (cfg : ScoreConfig) (hb : 0 < cfg.baseDropInterval)
    (l₁ l₂ : ℤ) (hl : l₁ < l₂) :
    ScoreManager.getDropInterval cfg l₂ < ScoreManager.getDropInterval cfg l₁
    ∧ 0 < ScoreManager.getDropInterval cfg l₂
    ∧ ScoreManager.getDropInterval cfg l₁
        = cfg.baseDropInterval * (9 / 10 : ℚ) ^ (l₁ - 1) := by
  refine ⟨?_, ?_, rfl⟩
  · unfold ScoreManager.getDropInterval
    apply mul_lt_mul_of_pos_left ?_ hb
    apply zpow_lt_zpow_right_of_lt_one₀ (by norm_num) (by norm_num)
    omega
  · exact mul_pos hb (zpow_pos (by norm_num) _)

/-- Witness for C5 at a concrete configuration and pair of levels. -/
theorem getDropInterval_spec_witness :
    ScoreManager.getDropInterval cfgDrop 5 < ScoreManager.getDropInterval cfgDrop 3 :=
  (getDropInterval_spec cfgDrop (by norm_num [cfgDrop]) 3 5 (by norm_num)).1

/-- C5 counterexample: for the concrete configuration there is no positive
minimum below which `getDropInterval` never goes — the code computes
base * 0.9 ^ (level − 1) with no floor, so the original claim's "floored at
a positive minimum interval" is false. -/
theorem getDropInterval_counterexample :
    ¬ ∃ m : ℚ, 0 < m ∧ ∀ level : ℤ, m ≤ ScoreManager.getDropInterval cfgDrop level := by
  rintro ⟨m, hm, hall⟩
  obtain ⟨n, hn⟩ := exists_pow_lt_of_lt_one
    (show (0 : ℚ) < m / 1000 by positivity) (show (9 / 10 : ℚ) < 1 by norm_num)
  have hlev := hall ((n : ℤ) + 1)
  have hval : ScoreManager.getDropInterval cfgDrop ((n : ℤ) + 1)
      = 1000 * (9 / 10 : ℚ) ^ n := by
    unfold ScoreManager.getDropInterval
    have he : ((n : ℤ) + 1 - 1) = (n : ℤ) := by ring
    rw [he, zpow_natCast]
    norm_num [cfgDrop]
  rw [hval] at hlev
  have hlt : 1000 * (9 / 10 : ℚ) ^ n < m := by linarith
  linarith

/-- C6 (amended): provided every defined score-table bonus is non-negative
and linesPerLevel is positive (the configurations the spec intends), each
`clearLines` call leaves score and totalLinesCleared non-decreasing, the
level non-decreasing, and re-establishes
level = initialLevel + floor(totalLinesCleared / linesPerLevel).
Without the non-negativity proviso the claim fails: see the
counterexample theorem. -/
theorem scoreManager_monotone (cfg : ScoreConfig)
    (hT : ∀ n v, cfg.scoreTable n = some v → 0 ≤ v)
    (_hL : 0 < cfg.linesPerLevel) (counts : List ℕ) (c : ℕ) :
    (ScoreManager.runClears cfg counts).score
        ≤ (ScoreManager.runClears cfg (counts ++ [c])).score
    ∧ (ScoreManager.runClears cfg counts).totalLinesCleared
        ≤ (ScoreManager.runClears cfg (counts ++ [c])).totalLinesCleared
    ∧ (ScoreManager.runClears cfg counts).level
        ≤ (ScoreManager.runClears cfg (counts ++ [c])).level
    ∧ (ScoreManager.runClears cfg (counts ++ [c])).level
        = cfg.initialLevel
          + (((ScoreManager.runClears cfg (counts ++ [c])).totalLinesCleared
                / cfg.linesPerLevel : ℕ) : ℤ) := by
  have hsplit : ScoreManager.runClears cfg (counts ++ [c])
      = ScoreManager.clearLines cfg (ScoreManager.runClears cfg counts) c := by
    rw [ScoreManager.runClears, List.foldl_append, List.foldl_cons, List.foldl_nil]
    rfl
  refine ⟨?_, ?_, ?_, ScoreManager.level_eq cfg (counts ++ [c])⟩
  · rw [hsplit]
    unfold ScoreManager.clearLines
    cases h : cfg.scoreTable c with
    | none => simp
    | some v =>
      simp only
      exact le_add_of_nonneg_right (hT c v h)
  · rw [hsplit]
    exact Nat.le_add_right _ c
  · rw [hsplit, ScoreManager.level_eq cfg counts]
    show cfg.initialLevel + _ ≤ cfg.initialLevel + _
    apply add_le_add_left
    exact_mod_cast Nat.div_le_div_right (Nat.le_add_right _ c)

/-- Witness for C6 at a concrete well-behaved configuration. -/
theorem scoreManager_monotone_witness :
    (ScoreManager.runClears cfgW [4]).score
      ≤ (ScoreManager.runClears cfgW ([4] ++ [2])).score := by
  have hT : ∀ n v, cfgW.scoreTable n = some v → 0 ≤ v := by
    intro n v hv
    simp only [cfgW] at hv
    split_ifs at hv <;> simp_all <;> omega
  exact (scoreManager_monotone cfgW hT (by decide) [4] 2).1

/-- C6 counterexample: a configuration whose table maps 1 cleared line to a
negative bonus makes the score decrease across a `clearLines(1)` call, so
the claim as stated (over every ScoreManager) is false. -/
theorem scoreManager_counterexample :
    (ScoreManager.runClears cfgNeg [1]).score
      < (ScoreManager.runClears cfgNeg []).score := by
  decide

/-- C9: `getTetrominoByIndex` fails with a distinguishable error exactly
when the index is outside 0..6, never silently substituting a shape, and an
in-range index returns (a value-identical copy of) the catalog entry for
that index. -/
theorem getTetrominoByIndex_spec (index : ℤ) :
    ((getTetrominoByIndex index).isOk = true ↔ 0 ≤ index ∧ index < 7)
    ∧ (0 ≤ index → index < 7 →
        getTetrominoByIndex index = Except.ok (TETROMINOS.getD index.toNat [])) := by
  have hlen : (TETROMINOS.length : ℤ) = 7 := by rfl
  constructor
  · unfold getTetrominoByIndex
    by_cases h : index < 0 ∨ (TETROMINOS.length : ℤ) ≤ index
    · rw [if_pos h, hlen] at *
      constructor
      · intro habs
        simp [Except.isOk, Except.toBool] at habs
      · rintro ⟨h1, h2⟩
        rw [hlen] at h
        have : False := by omega
        exact this.elim
    · rw [if_neg h]
      rw [hlen] at h
      push_neg at h
      constructor
      · intro _
        exact ⟨by omega, by omega⟩
      · intro _
        simp [Except.isOk, Except.toBool]
  · intro h1 h2
    unfold getTetrominoByIndex
    rw [if_neg (by rw [hlen]; omega)]

/-- Witness for C9 at the in-range index 3 (the S piece slot). -/
theorem getTetrominoByIndex_spec_witness :
    getTetrominoByIndex 3 = Except.ok (TETROMINOS.getD (3 : ℤ).toNat []) :=
  (getTetrominoByIndex_spec 3).2 (by decide) (by decide)

/-- C10: the board-mutating operations preserve the board dimensions: a
20-row, 10-column grid stays 20-by-10 under the merge phase, `lockPiece`,
`clearLines` and `clearLinesOptimized`. -/
theorem boardOps_preserve_dims (g : Grid) (shape : BlockShape) (offsetX offsetY : ℤ)
    (hg : gridDims g) :
    gridDims (mergePiece g shape offsetX offsetY)
    ∧ gridDims (lockPiece g shape offsetX offsetY).1
    ∧ gridDims (clearLines g).1
    ∧ gridDims (clearLinesOptimized g).1 := by
  have hmerge : ∀ (G : Grid), gridDims G → gridDims (mergePiece G shape offsetX offsetY) := by
    intro G hG
    unfold mergePiece
    apply foldl_induction _ _ _ (fun A => gridDims A) hG
    intro b sy _ hb
    apply foldl_induction _ _ _ (fun A => gridDims A) hb
    intro b2 sx _ hb2
    dsimp only
    split_ifs with h1 h2
    · exact setCell_dims b2 _ _ _ GRID_HEIGHT GRID_WIDTH hb2
    · exact hb2
    · exact hb2
  have hclear : ∀ (G : Grid), gridDims G → gridDims (clearLines G).1 := by
    intro G hG
    rw [clearLines_spec]
    exact cleared_dims G hG
  have hopt : ∀ (G : Grid), gridDims G → gridDims (clearLinesOptimized G).1 := by
    intro G hG
    show gridDims (if countComplete G = 0 then (G, 0)
      else (List.replicate (countComplete G) zeroRow
              ++ G.filter (fun row => !rowComplete row), countComplete G)).1
    by_cases h : countComplete G = 0
    · rw [if_pos h]
      exact hG
    · rw [if_neg h]
      exact cleared_dims G hG
  refine ⟨hmerge g hg, ?_, hclear g hg, hopt g hg⟩
  show gridDims (clearLines (mergePiece g shape offsetX offsetY)).1
  exact hclear _ (hmerge g hg)

/-- Witness for C10 at a concrete board and piece. -/
theorem boardOps_preserve_dims_witness :
    gridDims (lockPiece emptyGrid T_PIECE 3 0).1 :=
  (boardOps_preserve_dims emptyGrid T_PIECE 3 0 (by decide)).2.1

/-- C4 (amended): the merge phase of `lockPiece` writes a shape cell into
the grid only when the cell is occupied and its absolute coordinates lie in
[0,10) x [0,20) — every other grid cell is untouched, and out-of-bounds
cells are silently dropped with no error (the function is total).  When the
piece has zero occupied cells in range, the merge is the identity, so on a
grid with no already-complete rows `lockPiece` clears nothing and returns
linesCleared = 0.  (Without the no-complete-rows proviso the zero-result
part of the original claim is false: see the counterexample.) -/
theorem lockPiece_spec (grid : Grid) (shape : BlockShape) (offsetX offsetY : ℤ) :
    (∀ y x : ℕ, hitsCell shape offsetX offsetY y x = false →
        cellAt (mergePiece grid shape offsetX offsetY) y x = cellAt grid y x)
    ∧ (noCellInRange shape offsetX offsetY = true → noCompleteRow grid = true →
        lockPiece grid shape offsetX offsetY = (grid, 0)) := by
  constructor
  · unfold mergePiece
    apply foldl_induction _ _ _
      (fun A => ∀ y x : ℕ, hitsCell shape offsetX offsetY y x = false →
        cellAt A y x = cellAt grid y x)
    · intro y x _
      rfl
    · intro b sy hsy hb
      apply foldl_induction _ _ _
        (fun A => ∀ y x : ℕ, hitsCell shape offsetX offsetY y x = false →
          cellAt A y x = cellAt grid y x)
      · exact hb
      · intro b2 sx hsx hb2 y x hyx
        dsimp only
        split_ifs with h1 h2
        · rw [cellAt_setCell_ne]
          · exact hb2 y x hyx
          · rintro ⟨e1, e2⟩
            have hhit : hitsCell shape offsetX offsetY y x = true := by
              unfold hitsCell
              rw [List.any_eq_true]
              refine ⟨sy, hsy, ?_⟩
              rw [List.any_eq_true]
              refine ⟨sx, hsx, ?_⟩
              simp only [Bool.and_eq_true, bne_iff_ne, decide_eq_true_eq, beq_iff_eq]
              exact ⟨⟨⟨⟨⟨⟨h1, h2.1⟩, h2.2.1⟩, h2.2.2.1⟩, h2.2.2.2⟩, e1⟩, e2⟩
            rw [hhit] at hyx
            exact absurd hyx (by simp)
        · exact hb2 y x hyx
        · exact hb2 y x hyx
  · intro hnone hnofull
    have hallnc : ∀ a ∈ grid, rowComplete a = false := by
      intro a ha
      have := (List.all_eq_true.mp hnofull) a ha
      simpa using this
    have hmerge : mergePiece grid shape offsetX offsetY = grid := by
      unfold mergePiece
      apply foldl_induction _ _ _ (fun A => A = grid) rfl
      intro b sy hsy hb
      apply foldl_induction _ _ _ (fun A => A = grid) hb
      intro b2 sx hsx hb2
      dsimp only
      have h1 := (List.all_eq_true.mp hnone) sy hsy
      have h2 := (List.all_eq_true.mp h1) sx hsx
      simp only [Bool.or_eq_true, beq_iff_eq, Bool.not_eq_true'] at h2
      rcases h2 with hv | hbf
      · rw [if_neg (fun hne => hne hv)]
        exact hb2
      · by_cases hv : (shape.getD sy []).getD sx 0 ≠ 0
        · rw [if_pos hv, if_neg ?bounds]
          · exact hb2
          case bounds =>
            rintro ⟨k1, k2, k3, k4⟩
            simp [k1, k2, k3, k4] at hbf
        · rw [if_neg hv]
          exact hb2
    show clearLines (mergePiece grid shape offsetX offsetY) = (grid, 0)
    rw [hmerge, clearLines_spec]
    have hcc : countComplete grid = 0 := by
      apply List.countP_eq_zero.mpr
      intro a ha
      simp [hallnc a ha]
    have hfix : grid.filter (fun row => !rowComplete row) = grid := by
      apply List.filter_eq_self.mpr
      intro a ha
      simp [hallnc a ha]
    rw [hcc, hfix]
    simp

/-- Witness for C4: an untouched cell under a normal lock, and a fully
out-of-range lock on a clean board returning zero. -/
theorem lockPiece_spec_witness :
    cellAt (mergePiece emptyGrid T_PIECE 3 0) 19 0 = cellAt emptyGrid 19 0
    ∧ lockPiece emptyGrid T_PIECE (-100) 0 = (emptyGrid, 0) :=
  ⟨(lockPiece_spec emptyGrid T_PIECE 3 0).1 19 0 (by decide),
   (lockPiece_spec emptyGrid T_PIECE (-100) 0).2 (by decide) (by decide)⟩

/-- C4 counterexample: on a board whose bottom row is already complete,
locking a piece with zero occupied cells in range returns linesCleared = 1,
not 0 — `lockPiece` always runs the clear phase, so the original claim's
"clears nothing and returns 0" fails on boards with pre-existing complete
rows. -/
theorem lockPiece_counterexample : (lockPiece fullRowGrid zeroShape 0 0).2 ≠ 0 := by
  have hm : mergePiece fullRowGrid zeroShape 0 0 = fullRowGrid := by decide
  show (clearLines (mergePiece fullRowGrid zeroShape 0 0)).2 ≠ 0
  rw [hm, clearLines_spec]
  show countComplete fullRowGrid ≠ 0
  decide

/-- C7: for every square shape, four clockwise rotations (and four
counter-clockwise rotations) reproduce the original shape; one clockwise
followed by one counter-clockwise rotation is the identity; and the
clockwise rotation maps local cell (i, j) to (j, N−1−i) while the
counter-clockwise rotation maps it to (N−1−j, i) — a bijective relocation,
so no occupied cell is lost. -/
theorem rotateShape_spec (s : BlockShape) (hsq : dimsHW s s.length s.length) :
    rotateShape (rotateShape (rotateShape (rotateShape s Direction.clockwise)
        Direction.clockwise) Direction.clockwise) Direction.clockwise = s
    ∧ rotateShape (rotateShape (rotateShape (rotateShape s Direction.counterClockwise)
        Direction.counterClockwise) Direction.counterClockwise)
        Direction.counterClockwise = s
    ∧ rotateShape (rotateShape s Direction.clockwise) Direction.counterClockwise = s
    ∧ ∀ i j : ℕ, i < s.length → j < s.length →
        cellAt (rotateShape s Direction.clockwise) j (s.length - 1 - i) = cellAt s i j
        ∧ cellAt (rotateShape s Direction.counterClockwise) (s.length - 1 - j) i
            = cellAt s i j := by
  have hcw : ∀ (g : Grid), g.length = s.length → ∀ r c, r < s.length → c < s.length →
      cellAt (rotateShape g Direction.clockwise) r c = cellAt g (s.length - 1 - c) r := by
    intro g hgl r c hr hc
    have hcell := rotateShape_cw_cell g r c (by omega) (by omega)
    rw [hgl] at hcell
    exact hcell
  have hccw : ∀ (g : Grid), g.length = s.length → ∀ r c, r < s.length → c < s.length →
      cellAt (rotateShape g Direction.counterClockwise) r c
        = cellAt g c (s.length - 1 - r) := by
    intro g hgl r c hr hc
    have hcell := rotateShape_ccw_cell g r c (by omega) (by omega)
    rw [hgl] at hcell
    exact hcell
  have hdims : ∀ (g : Grid) (d : Direction), g.length = s.length →
      dimsHW (rotateShape g d) s.length s.length := by
    intro g d hgl
    have := rotateShape_dims g d
    rw [hgl] at this
    exact this
  have d1 := hdims s Direction.clockwise rfl
  have d2 := hdims _ Direction.clockwise d1.1
  have d3 := hdims _ Direction.clockwise d2.1
  have d4 := hdims _ Direction.clockwise d3.1
  have e1 := hdims s Direction.counterClockwise rfl
  have e2 := hdims _ Direction.counterClockwise e1.1
  have e3 := hdims _ Direction.counterClockwise e2.1
  have e4 := hdims _ Direction.counterClockwise e3.1
  refine ⟨?_, ?_, ?_, ?_⟩
  · apply grid_ext _ s s.length s.length d4 hsq
    intro r c hr hc
    rw [hcw _ d3.1 r c hr hc,
      hcw _ d2.1 (s.length - 1 - c) r (by omega) hr,
      hcw _ d1.1 (s.length - 1 - r) (s.length - 1 - c) (by omega) (by omega),
      hcw s rfl (s.length - 1 - (s.length - 1 - c)) (s.length - 1 - r) (by omega) (by omega)]
    have ec : s.length - 1 - (s.length - 1 - c) = c := by omega
    have er : s.length - 1 - (s.length - 1 - r) = r := by omega
    rw [ec, er]
  · apply grid_ext _ s s.length s.length e4 hsq
    intro r c hr hc
    rw [hccw _ e3.1 r c hr hc,
      hccw _ e2.1 c (s.length - 1 - r) hc (by omega),
      hccw _ e1.1 (s.length - 1 - r) (s.length - 1 - c) (by omega) (by omega),
      hccw s rfl (s.length - 1 - c) (s.length - 1 - (s.length - 1 - r)) (by omega) (by omega)]
    have ec : s.length - 1 - (s.length - 1 - c) = c := by omega
    have er : s.length - 1 - (s.length - 1 - r) = r := by omega
    rw [ec, er]
  · have dcc := hdims _ Direction.counterClockwise d1.1
    apply grid_ext _ s s.length s.length dcc hsq
    intro r c hr hc
    rw [hccw _ d1.1 r c hr hc, hcw s rfl c (s.length - 1 - r) hc (by omega)]
    have er : s.length - 1 - (s.length - 1 - r) = r := by omega
    rw [er]
  · intro i j hi hj
    constructor
    · rw [hcw s rfl j (s.length - 1 - i) hj (by omega)]
      have ei : s.length - 1 - (s.length - 1 - i) = i := by omega
      rw [ei]
    · rw [hccw s rfl (s.length - 1 - j) i (by omega) hi]
      have ej : s.length - 1 - (s.length - 1 - j) = j := by omega
      rw [ej]

/-- Witness for C7 at the concrete square T piece. -/
theorem rotateShape_spec_witness :
    dimsHW T_PIECE T_PIECE.length T_PIECE.length
    ∧ rotateShape (rotateShape (rotateShape (rotateShape T_PIECE Direction.clockwise)
        Direction.clockwise) Direction.clockwise) Direction.clockwise = T_PIECE :=
  ⟨by decide, (rotateShape_spec T_PIECE (by decide)).1⟩

/-- C8: when every kick candidate of `attemptRotationSRS` fails, it returns
the original shape at the unchanged offsets with valid = false and a
newRotation equal to the pre-attempt rotation state; and when the kick
table has no entry for the computed transition, the candidate list it tries
is exactly the single no-offset candidate (0, 0). -/
theorem attemptRotationSRS_spec (grid : Grid) (shape : BlockShape)
    (offsetX offsetY : ℤ) (direction : Direction) (currentRotation : ℕ)
    (isIPiece : Bool) :
    ((∀ k ∈ srsKickOffsets isIPiece currentRotation
          (srsNewRotation direction currentRotation),
        ¬ isPositionValid grid (rotateShape shape direction)
          (offsetX + k.1) (offsetY + k.2) = true) →
      attemptRotationSRS grid shape offsetX offsetY direction currentRotation isIPiece
        = { rotated := shape, x := offsetX, y := offsetY, valid := false,
            newRotation := currentRotation })
    ∧ ((srsKickTable isIPiece).lookup
          (transitionKey currentRotation (srsNewRotation direction currentRotation))
            = none →
        srsKickOffsets isIPiece currentRotation (srsNewRotation direction currentRotation)
          = [(0, 0)]
        ∧ attemptRotationSRS grid shape offsetX offsetY direction currentRotation isIPiece
            = if isPositionValid grid (rotateShape shape direction) offsetX offsetY
              then { rotated := rotateShape shape direction, x := offsetX, y := offsetY,
                     valid := true,
                     newRotation := srsNewRotation direction currentRotation }
              else { rotated := shape, x := offsetX, y := offsetY, valid := false,
                     newRotation := currentRotation }) := by
  constructor
  · intro hall
    simp only [attemptRotationSRS]
    have hfind : (srsKickOffsets isIPiece currentRotation
        (srsNewRotation direction currentRotation)).find?
        (fun k => isPositionValid grid (rotateShape shape direction)
          (offsetX + k.1) (offsetY + k.2)) = none :=
      List.find?_eq_none.mpr hall
    rw [hfind]
  · intro hnone
    have hk : srsKickOffsets isIPiece currentRotation
        (srsNewRotation direction currentRotation) = [(0, 0)] := by
      unfold srsKickOffsets
      rw [hnone]
      rfl
    refine ⟨hk, ?_⟩
    simp only [attemptRotationSRS]
    rw [hk]
    by_cases h0 : isPositionValid grid (rotateShape shape direction) offsetX offsetY = true
    · have hp : (fun k : ℤ × ℤ => isPositionValid grid (rotateShape shape direction)
          (offsetX + k.1) (offsetY + k.2)) ((0 : ℤ), (0 : ℤ)) = true := by
        simpa using h0
      have hfind : List.find? (fun k : ℤ × ℤ => isPositionValid grid
            (rotateShape shape direction) (offsetX + k.1) (offsetY + k.2))
          [((0 : ℤ), (0 : ℤ))] = some ((0 : ℤ), (0 : ℤ)) :=
        List.find?_cons_of_pos _ hp
      rw [hfind, if_pos h0]
      simp
    · have hp : ¬((fun k : ℤ × ℤ => isPositionValid grid (rotateShape shape direction)
          (offsetX + k.1) (offsetY + k.2)) ((0 : ℤ), (0 : ℤ)) = true) := by
        simpa using h0
      have hfind : List.find? (fun k : ℤ × ℤ => isPositionValid grid
            (rotateShape shape direction) (offsetX + k.1) (offsetY + k.2))
          [((0 : ℤ), (0 : ℤ))]
          = List.find? (fun k : ℤ × ℤ => isPositionValid grid
              (rotateShape shape direction) (offsetX + k.1) (offsetY + k.2)) [] :=
        List.find?_cons_of_neg _ hp
      rw [hfind, if_neg h0]
      rfl

/-- Witness for C8: total failure on a saturated board reverts everything,
and an out-of-range rotation state (4) has no table entry, so the candidate
list degenerates to [(0, 0)]. -/
theorem attemptRotationSRS_spec_witness :
    attemptRotationSRS fullGrid T_PIECE 3 5 Direction.clockwise 0 false
      = { rotated := T_PIECE, x := 3, y := 5, valid := false, newRotation := 0 }
    ∧ srsKickOffsets false 4 (srsNewRotation Direction.clockwise 4) = [(0, 0)] :=
  ⟨(attemptRotationSRS_spec fullGrid T_PIECE 3 5 Direction.clockwise 0 false).1
      (by decide),
   ((attemptRotationSRS_spec emptyGrid T_PIECE 3 5 Direction.clockwise 4 false).2
      (by decide)).1⟩
